import Mathlib

/-!
Verification of the Red Pitaya 4-channel acquisition script
(`Software_ADQ-4IN.py`).  The definitions below are a shallow
embedding of the script's pure core: the storage-budget estimator,
the configuration-collection helpers, the per-event capture window,
and the file-rotation loop of the acquisition session.  Python
floating-point arithmetic is modelled over `ℚ`, machine integers
over `ℤ`/`ℕ`, and the `exit()` call on insufficient storage as an
`Except` error value.
-/

namespace ADQ

/-- Errors of the pipeline.  The script calls `exit()` when the free
space minus the 200 MB margin is non-positive; we model that
termination as `insufficientStorage`. -/
inductive StorageError where
  | insufficientStorage
  deriving DecidableEq, Repr

/-- Embeds `interpolate_params` from the source: interpolates the parameters
`F` and `P` (in KB) as a function of the channel count, with the
branches `channels <= 1`, `channels >= 4` and the linear middle case. -/
def interpolate_params (channels : ℚ) : ℚ × ℚ :=
  if channels ≤ 1 then (2.68, 1.59)
  else if channels ≥ 4 then (5.10, 2.30)
  else
    (2.68 + (5.10 - 2.68) * (channels - 1) / (4 - 1),
     1.59 + (2.30 - 1.59) * (channels - 1) / (4 - 1))

/-- Embeds `estimate_file_size` from the source: estimated file size in KB
as a function of channels, samples and events. -/
def estimate_file_size (channels samples events : ℚ) : ℚ :=
  let data_payload := (channels * samples * 4) / 1024
  let FP := interpolate_params channels
  FP.1 + (events - 1) * (data_payload + FP.2)

/-- The `max_events` computation inside `get_max_events`:
`int(available_space_kb // per_event_size)` with
`available_space_kb = (free_space - 200) * 1024` and
`per_event_size = estimate_file_size(channels, samples, 1)`. -/
def max_events_calc (samples channels free_space : ℚ) : ℤ :=
  ⌊((free_space - 200) * 1024) / estimate_file_size channels samples 1⌋

/-- The pure core of `get_max_events` from the source: checks the
200 MB safety margin (exiting — here erroring — when it is not met),
computes `max_events` and returns `min(num_events, max_events)`,
where `num_events` is the operator-requested event count. -/
def get_max_events (samples channels free_space : ℚ) (num_events : ℤ) :
    Except StorageError ℤ :=
  let available_space_mb := free_space - 200
  if available_space_mb ≤ 0 then .error .insufficientStorage
  else
    .ok (min num_events (max_events_calc samples channels free_space))

/-- Modelled from the spec's wording for the fixed file-header cost:
linear interpolation between the calibration points `(1, 2.68)` and
`(4, 5.10)`, clamped to the endpoints outside `[1, 4]`. -/
def F_spec (c : ℚ) : ℚ :=
  2.68 + (5.10 - 2.68) * (max 1 (min 4 c) - 1) / 3

/-- Modelled from the spec's wording for the per-event bookkeeping
cost: linear interpolation between `(1, 1.59)` and `(4, 2.30)`,
clamped to the endpoints outside `[1, 4]`. -/
def P_spec (c : ℚ) : ℚ :=
  1.59 + (2.30 - 1.59) * (max 1 (min 4 c) - 1) / 3

lemma interpolate_params_eq_spec (c : ℚ) :
    interpolate_params c = (F_spec c, P_spec c) := by
  unfold interpolate_params F_spec P_spec
  rcases le_or_lt c 1 with h1 | h1
  · rw [if_pos h1, min_eq_right (le_trans h1 (by norm_num)),
      max_eq_left h1]
    norm_num
  · rw [if_neg (not_le.mpr h1)]
    rcases le_or_lt 4 c with h4 | h4
    · rw [if_pos h4, min_eq_left h4]
      norm_num
    · rw [if_neg (not_le.mpr h4), min_eq_right h4.le,
        max_eq_right h1.le]
      norm_num

lemma F_spec_lower (c : ℚ) : (2.68 : ℚ) ≤ F_spec c := by
  unfold F_spec
  have h1 : (1 : ℚ) ≤ max 1 (min 4 c) := le_max_left 1 _
  nlinarith

lemma estimate_one (channels samples : ℚ) :
    estimate_file_size channels samples 1 = (interpolate_params channels).1 := by
  unfold estimate_file_size
  ring

/-- Python `str.strip()`: removes leading and trailing whitespace.
Operator input strings are modelled as `List Char` so that all the
parsing below is kernel-computable. -/
def strip_chars (s : List Char) : List Char :=
  ((s.dropWhile Char.isWhitespace).reverse.dropWhile Char.isWhitespace).reverse

/-- Python `str.split()` (no argument): whitespace-separated tokens,
empty tokens dropped. -/
def py_split_ws (s : List Char) : List (List Char) :=
  (List.splitOnP Char.isWhitespace s).filter (fun t => !t.isEmpty)

/-- Python `str.isdigit()` for the ASCII digits appearing here:
non-empty and all digits. -/
def py_isdigit (t : List Char) : Bool :=
  !t.isEmpty && t.all Char.isDigit

/-- Value of a string of decimal digits (Python `int` on a digit
token). -/
def chars_to_nat (t : List Char) : ℕ :=
  t.foldl (fun a c => 10 * a + (c.toNat - 48)) 0

/-- Python `int()` on a stripped string: optional sign followed by
digits; `none` models the `ValueError`. -/
def py_int? (t : List Char) : Option ℤ :=
  match t with
  | '-' :: rest => if py_isdigit rest then some (-(chars_to_nat rest : ℤ)) else none
  | '+' :: rest => if py_isdigit rest then some ((chars_to_nat rest : ℤ)) else none
  | rest => if py_isdigit rest then some ((chars_to_nat rest : ℤ)) else none

/-- Embeds `select_channels` from the source: parses the operator's channel
input.  Empty input falls back to `available_channels`; otherwise
commas become spaces, whitespace-separated digit tokens are parsed,
filtered to the available set, and an empty result again falls back
to `available_channels`. -/
def select_channels (inp : List Char) (available_channels : List ℤ) : List ℤ :=
  if strip_chars inp = [] then available_channels
  else
    let toks := py_split_ws (inp.map (fun c => if c = ',' then ' ' else c))
    let nums := (toks.filter py_isdigit).map (fun t => (chars_to_nat t : ℤ))
    let chs := nums.filter (fun n => available_channels.contains n)
    if chs = [] then available_channels else chs

/-- Embeds `get_user_input` from the source instantiated with `cast_type = int`:
returns the default on empty input, the parsed integer otherwise, and
the default again when parsing fails (the `ValueError` branch). -/
def get_user_input_int (inp : List Char) (default_value : ℤ) : ℤ :=
  let s := strip_chars inp
  if s = [] then default_value
  else
    match py_int? s with
    | some v => v
    | none => default_value

/-- The acquisition parameters collected before the loop (lines
302–315 of the source): samples per event (default 32), samples
delay (default 8) and the channel selection.  The collection is a
total function into a configuration — the script has no rejection
path for these inputs. -/
structure AcqConfig where
  samples : ℤ
  samples_delay : ℤ
  channels_to_acquire : List ℤ
  deriving DecidableEq, Repr

/-- The pre-flight parameter configuration of the source: each value
comes from `get_user_input` / `select_channels` with the source's
defaults, and the result always proceeds to acquisition. -/
def preflight_config (samples_input delay_input chan_input : List Char) : AcqConfig :=
  { samples := get_user_input_int samples_input 32
    samples_delay := get_user_input_int delay_input 8
    channels_to_acquire := select_channels chan_input [1, 2, 3, 4] }

/-- The circular-buffer size `N = 16384` from the source. -/
def bufN : ℤ := 16384

/-- The per-channel window extraction of the acquisition loop:
element `i` (for `i < samples`) is buffer element
`i + N//2 - samples_delay`.  The buffer is modelled as a total
function on `ℤ` indices. -/
def capture_window (buf : ℤ → ℚ) (samples : ℕ) (samples_delay : ℤ) : List ℚ :=
  (List.range samples).map (fun (i : ℕ) => buf ((i : ℤ) + bufN / 2 - samples_delay))

/-- Dataset name `channel_{ch}` as written by the loop. -/
def channel_name (ch : ℤ) : String := "channel_" ++ toString ch

/-- Zero padding of `{n:0wd}` Python formatting (width `w`). -/
def zero_pad (w : ℕ) (n : ℕ) : String :=
  let s := toString n
  String.mk (List.replicate (w - s.length) '0') ++ s

/-- Group name `event_{k:06d}` as written by the loop. -/
def group_name (k : ℕ) : String := "event_" ++ zero_pad 6 k

/-- One event group as written into the current file: the group name,
its 1-based global sequence number, the `timestamp` attribute, and
one dataset per configured channel. -/
structure EventGroup where
  name : String
  seq : ℕ
  timestamp : ℤ
  datasets : List (String × List ℚ)
  deriving DecidableEq, Repr

/-- The per-trigger capture of the loop body: records the trigger
timestamp and, for each configured channel, the extracted window of
`samples` values as dataset `channel_{ch}`. -/
def capture_event (channels : List ℤ) (buf : ℤ → ℤ → ℚ) (samples : ℕ)
    (samples_delay : ℤ) (trigger_time_ns : ℤ) (seq : ℕ) : EventGroup :=
  { name := group_name seq
    seq := seq
    timestamp := trigger_time_ns
    datasets := channels.map
      (fun ch => (channel_name ch, capture_window (buf ch) samples samples_delay)) }

/-- The write-once file attributes written identically to every file
of a session (source lines 343–352 and 384–393). -/
structure SessionMetadata where
  set_time : ℤ
  sys_time : ℤ
  decimation : ℕ
  trigger_level : ℚ
  trigger_delay : ℤ
  samples_per_event : ℤ
  samples_delay : ℤ
  channels : List ℤ
  num_events : ℕ
  sampling_rate : ℚ
  deriving DecidableEq, Repr

/-- One HDF5 output file: its sequential index, its attribute set and
the event groups written into it. -/
structure OutputFile where
  index : ℕ
  metadata : SessionMetadata
  groups : List EventGroup
  deriving DecidableEq, Repr

/-- The mutable loop state of the script: `file_index`,
`current_file_size`, the files already closed by rotation (most
recent first) and the currently open file. -/
structure StoreState where
  file_index : ℕ
  current_file_size : ℕ
  closed_files : List OutputFile
  current_file : OutputFile
  deriving DecidableEq, Repr

/-- The rotation threshold `0.02 * 1024 * 1024` bytes of the source. -/
def file_threshold_bytes : ℚ := 0.02 * 1024 * 1024

/-- The state before the loop: `file_index = 1`,
`current_file_size = 0`, first file open with the session metadata. -/
def init_store (meta : SessionMetadata) : StoreState :=
  { file_index := 1
    current_file_size := 0
    closed_files := []
    current_file := { index := 1, metadata := meta, groups := [] } }

/-- The rotation branch of the loop: close the current file,
increment `file_index`, open a new file carrying the full metadata
attribute set, reset the byte counter to 0. -/
def rotate (meta : SessionMetadata) (st : StoreState) : StoreState :=
  { file_index := st.file_index + 1
    current_file_size := 0
    closed_files := st.current_file :: st.closed_files
    current_file := { index := st.file_index + 1, metadata := meta, groups := [] } }

/-- One iteration of the storage part of the loop (source lines
378–402): compute `event_size_bytes`, rotate when
`current_file_size + event_size_bytes > threshold`, then write the
group and add `event_size_bytes` to the counter. -/
def append_event (threshold : ℚ) (meta : SessionMetadata)
    (event_size_bytes : ℕ) (ev : EventGroup) (st : StoreState) : StoreState :=
  let st1 :=
    if ((st.current_file_size : ℚ) + event_size_bytes > threshold) then
      rotate meta st
    else st
  { st1 with
      current_file :=
        { st1.current_file with groups := st1.current_file.groups ++ [ev] }
      current_file_size := st1.current_file_size + event_size_bytes }

/-- The value of `current_file_size` at the moment the event's group
is created, i.e. after the rotation check of the same iteration. -/
def pre_write_size (threshold : ℚ) (event_size_bytes : ℕ) (st : StoreState) : ℕ :=
  if ((st.current_file_size : ℚ) + event_size_bytes > threshold) then 0
  else st.current_file_size

/-- The whole acquisition loop: `num_events` iterations, iteration
`e` capturing one event from the per-event buffers `bufs e` with
trigger time `trig e` and sequence number `e + 1`, appended to the
store. -/
def run_acquisition (threshold : ℚ) (meta : SessionMetadata)
    (channels : List ℤ) (samples : ℕ) (samples_delay : ℤ)
    (bufs : ℕ → ℤ → ℤ → ℚ) (trig : ℕ → ℤ) (num_events : ℕ) : StoreState :=
  (List.range num_events).foldl
    (fun st e =>
      append_event threshold meta (samples * channels.length * 4)
        (capture_event channels (bufs e) samples samples_delay (trig e) (e + 1)) st)
    (init_store meta)

/-- All event groups of a session, in write order across every file. -/
def all_groups (st : StoreState) : List EventGroup :=
  (st.closed_files.reverse.map OutputFile.groups).flatten ++ st.current_file.groups

/-- All output files of a session, oldest first, the open one last. -/
def all_files (st : StoreState) : List OutputFile :=
  st.closed_files.reverse ++ [st.current_file]

/-- Number of files created so far (closed ones plus the open one). -/
def num_files (st : StoreState) : ℕ := st.closed_files.length + 1

/-- The trigger timestamps accumulated by the loop (`trigger_times`). -/
def trigger_times_run (trig : ℕ → ℤ) (num_events : ℕ) : List ℤ :=
  (List.range num_events).map trig

/-- The final report of the script: with at least one trigger, the
elapsed time `(trigger_times[-1] - trigger_times[0]) / 1e9` seconds;
with none, `none` (the "no triggers detected" message). -/
def final_report (trigger_times : List ℤ) : Option ℚ :=
  match trigger_times with
  | [] => none
  | t :: r =>
      some ((((t :: r).getLast (List.cons_ne_nil t r) - t : ℤ) : ℚ) / 1000000000)

/-- Concrete session metadata used in witnesses and scenarios. -/
def meta_w : SessionMetadata :=
  { set_time := 0
    sys_time := 0
    decimation := 1
    trigger_level := 1 / 100
    trigger_delay := 0
    samples_per_event := 5
    samples_delay := 0
    channels := [1, 2, 3]
    num_events := 2
    sampling_rate := 125000000 }

/-- Concrete event group used in witnesses. -/
def ev_w : EventGroup :=
  { name := group_name 2, seq := 2, timestamp := 5, datasets := [] }

/-- Concrete store state (one 60-byte event already written) used in
witnesses. -/
def st_w : StoreState :=
  { file_index := 1
    current_file_size := 60
    closed_files := []
    current_file := { index := 1, metadata := meta_w, groups := [] } }

/-- Concrete trigger-time function used in witnesses. -/
def trig_w : ℕ → ℤ := fun i => 7 * (i : ℤ)

lemma interpolate_params_fst_pos (c : ℚ) : 0 < (interpolate_params c).1 := by
  rw [interpolate_params_eq_spec]
  have h := F_spec_lower c
  norm_num at h ⊢
  linarith

/-- C4: for every channel count `c`, sample count `s ≥ 1` and event
count `e ≥ 1`, the estimated file size in KB equals
`F(c) + (e - 1) * (c*s*4/1024 + P(c))` with `F`, `P` linearly
interpolated between the calibration points `(1, 2.68, 1.59)` and
`(4, 5.10, 2.30)` and clamped to those endpoints outside `[1, 4]`. -/
theorem estimate_file_size_formula (c s e : ℚ) (hs : 1 ≤ s) (he : 1 ≤ e) :
    estimate_file_size c s e = F_spec c + (e - 1) * (c * s * 4 / 1024 + P_spec c) ∧
    (c ≤ 1 → F_spec c = 2.68 ∧ P_spec c = 1.59) ∧
    (4 ≤ c → F_spec c = 5.10 ∧ P_spec c = 2.30) := by
  refine ⟨?_, ?_, ?_⟩
  · unfold estimate_file_size
    rw [interpolate_params_eq_spec]
  · intro h1
    unfold F_spec P_spec
    rw [min_eq_right (le_trans h1 (by norm_num)), max_eq_left h1]
    norm_num
  · intro h4
    unfold F_spec P_spec
    rw [min_eq_left h4, max_eq_right (by norm_num : (1 : ℚ) ≤ 4)]
    norm_num

/-- Witness for C4 at `c = 2`, `s = 32`, `e = 10`. -/
theorem estimate_file_size_formula_witness :
    (1 : ℚ) ≤ 32 ∧ (1 : ℚ) ≤ 10 ∧
    estimate_file_size 2 32 10 = F_spec 2 + (10 - 1) * (2 * 32 * 4 / 1024 + P_spec 2) :=
  ⟨by norm_num, by norm_num,
    (estimate_file_size_formula 2 32 10 (by norm_num) (by norm_num)).1⟩

/-- C2: whenever `free_space - 200 > 0`, the storage-budget
computation returns `min(requested, max_events)` with
`max_events = ⌊((free_space - 200) * 1024) / estimate_file_size(c, s, 1)⌋`,
the single-event estimate in the denominator. -/
theorem get_max_events_formula (samples channels free_space : ℚ) (num_events : ℤ)
    (h : 0 < free_space - 200) :
    get_max_events samples channels free_space num_events =
      .ok (min num_events
        ⌊((free_space - 200) * 1024) / estimate_file_size channels samples 1⌋) := by
  simp only [get_max_events, max_events_calc]
  rw [if_neg (by linarith)]

/-- Witness for C2 at `s = 32`, `c = 4`, `free = 500`, `req = 10`. -/
theorem get_max_events_formula_witness :
    (0 : ℚ) < 500 - 200 ∧
    get_max_events 32 4 500 10 =
      .ok (min 10 ⌊((500 - 200 : ℚ) * 1024) / estimate_file_size 4 32 1⌋) :=
  ⟨by norm_num, get_max_events_formula 32 4 500 10 (by norm_num)⟩

/-- C3: the estimator errors with `insufficientStorage` whenever
`free_space - 200 ≤ 0` (acquisition does not start: no `.ok`
configuration is produced), and the computed `max_events` is never
negative. -/
theorem storage_guard (samples channels free_space : ℚ) (num_events : ℤ) :
    (free_space - 200 ≤ 0 →
      get_max_events samples channels free_space num_events =
        .error .insufficientStorage) ∧
    (0 < free_space - 200 → 0 ≤ max_events_calc samples channels free_space) := by
  constructor
  · intro h
    simp only [get_max_events]
    rw [if_pos h]
  · intro h
    unfold max_events_calc
    refine Int.floor_nonneg.mpr (div_nonneg (by nlinarith) ?_)
    rw [estimate_one]
    exact (interpolate_params_fst_pos channels).le

/-- Witness for C3: the error branch at `free = 150` and the
non-negativity at `free = 500`. -/
theorem storage_guard_witness :
    ((150 : ℚ) - 200 ≤ 0 ∧
      get_max_events 32 4 150 10 = .error .insufficientStorage) ∧
    ((0 : ℚ) < 500 - 200 ∧ 0 ≤ max_events_calc 32 4 500) :=
  ⟨⟨by norm_num, (storage_guard 32 4 150 10).1 (by norm_num)⟩,
   ⟨by norm_num, (storage_guard 32 4 500 10).2 (by norm_num)⟩⟩

/-- C10: the computed maximum event count does not depend on the
samples-per-event parameter: the single-event estimate collapses to
the interpolated header cost `F(c)` alone. -/
theorem max_events_samples_independent (channels free_space s1 s2 : ℚ)
    (h : 0 < free_space - 200) :
    max_events_calc s1 channels free_space = max_events_calc s2 channels free_space ∧
    max_events_calc s1 channels free_space =
      ⌊((free_space - 200) * 1024) / (interpolate_params channels).1⌋ := by
  unfold max_events_calc
  rw [estimate_one, estimate_one]
  exact ⟨rfl, rfl⟩

/-- Witness for C10 at `c = 4`, `free = 500`, `s1 = 32`, `s2 = 4096`. -/
theorem max_events_samples_independent_witness :
    (0 : ℚ) < 500 - 200 ∧
    max_events_calc 32 4 500 = max_events_calc 4096 4 500 :=
  ⟨by norm_num, (max_events_samples_independent 4 500 32 4096 (by norm_num)).1⟩

/-- C1: one `append_event` step rotates exactly when
`current_file_size + event_size_bytes > threshold`: in that case the
file index is incremented, the new file carries the full metadata
attribute set and starts with only this event, and the byte counter
was reset before the write; otherwise everything stays in the
current file.  In both cases the file size at the moment the group
is written never exceeds the threshold. -/
theorem rotation_policy (threshold : ℚ) (hth : 0 ≤ threshold)
    (meta : SessionMetadata) (event_size_bytes : ℕ) (ev : EventGroup)
    (st : StoreState) :
    (append_event threshold meta event_size_bytes ev st).file_index =
      (if ((st.current_file_size : ℚ) + event_size_bytes > threshold) then
        st.file_index + 1 else st.file_index) ∧
    (append_event threshold meta event_size_bytes ev st).current_file.index =
      (if ((st.current_file_size : ℚ) + event_size_bytes > threshold) then
        st.file_index + 1 else st.current_file.index) ∧
    (append_event threshold meta event_size_bytes ev st).current_file.metadata =
      (if ((st.current_file_size : ℚ) + event_size_bytes > threshold) then
        meta else st.current_file.metadata) ∧
    (append_event threshold meta event_size_bytes ev st).current_file.groups =
      (if ((st.current_file_size : ℚ) + event_size_bytes > threshold) then
        [ev] else st.current_file.groups ++ [ev]) ∧
    (append_event threshold meta event_size_bytes ev st).current_file_size =
      (if ((st.current_file_size : ℚ) + event_size_bytes > threshold) then
        event_size_bytes else st.current_file_size + event_size_bytes) ∧
    (pre_write_size threshold event_size_bytes st : ℚ) ≤ threshold := by
  by_cases h : ((st.current_file_size : ℚ) + event_size_bytes > threshold)
  · refine ⟨?_, ?_, ?_, ?_, ?_, ?_⟩ <;>
      simp [append_event, rotate, pre_write_size, h, hth]
  · have hle : (st.current_file_size : ℚ) + event_size_bytes ≤ threshold :=
      not_lt.mp h
    have hcast : (0 : ℚ) ≤ (event_size_bytes : ℚ) := by positivity
    refine ⟨?_, ?_, ?_, ?_, ?_, ?_⟩ <;>
      simp [append_event, rotate, pre_write_size, h]
    linarith

/-- Witness for C1: with `threshold = 100` and a 60-byte event
appended to a file already holding 60 bytes (`60 + 60 > 100`), the
step rotates to file 2 carrying the metadata, and the pre-write size
respects the threshold. -/
theorem rotation_policy_witness :
    (0 : ℚ) ≤ 100 ∧
    (append_event 100 meta_w 60 ev_w st_w).file_index = 2 ∧
    (append_event 100 meta_w 60 ev_w st_w).current_file.metadata = meta_w ∧
    (append_event 100 meta_w 60 ev_w st_w).current_file.groups = [ev_w] ∧
    (pre_write_size 100 60 st_w : ℚ) ≤ 100 := by
  have h := rotation_policy 100 (by norm_num) meta_w 60 ev_w st_w
  have hc : ((st_w.current_file_size : ℚ) + (60 : ℕ) > 100) := by
    norm_num [st_w]
  refine ⟨by norm_num, ?_, ?_, ?_, h.2.2.2.2.2⟩
  · rw [h.1, if_pos hc]
    rfl
  · rw [h.2.2.1, if_pos hc]
  · rw [h.2.2.2.1, if_pos hc]

/-- Spec scenario: `threshold = 100`, `event_size = 60` (three
channels, five samples), two events produce two files. -/
lemma rotation_scenario_two_files :
    num_files (run_acquisition 100 meta_w [1, 2, 3] 5 0
      (fun _ _ _ => 0) (fun _ => 0) 2) = 2 := by
  norm_num [run_acquisition, num_files, append_event, rotate, init_store,
    List.range_succ]

/-- Spec scenario: same events with `threshold = 200` produce a
single file. -/
lemma rotation_scenario_one_file :
    num_files (run_acquisition 200 meta_w [1, 2, 3] 5 0
      (fun _ _ _ => 0) (fun _ => 0) 3) = 1 := by
  norm_num [run_acquisition, num_files, append_event, rotate, init_store,
    List.range_succ]

/-- C5: the stored sample sequence of a channel has exactly
`samples` elements and element `i` is buffer element
`i + 8192 - samples_delay` (the buffer midpoint `16384 / 2 = 8192`
shifted back by the samples delay). -/
theorem window_extraction (buf : ℤ → ℚ) (samples : ℕ) (samples_delay : ℤ)
    (i : ℕ) (hi : i < samples) :
    (capture_window buf samples samples_delay).length = samples ∧
    (capture_window buf samples samples_delay)[i]? =
      some (buf ((i : ℤ) + 8192 - samples_delay)) := by
  constructor
  · unfold capture_window
    rw [List.length_map, List.length_range]
  · unfold capture_window
    rw [List.getElem?_map, List.getElem?_range hi, Option.map_some']
    norm_num [bufN]

/-- Witness for C5 at `samples = 32`, `samples_delay = 8`, `i = 0`
with the identity buffer: the first stored value is buffer element
`8184`. -/
theorem window_extraction_witness :
    (0 < 32 ∧ (capture_window (fun z => (z : ℚ)) 32 8).length = 32) ∧
    (capture_window (fun z => (z : ℚ)) 32 8)[0]? = some ((8184 : ℚ)) := by
  have h := window_extraction (fun z => (z : ℚ)) 32 8 0 (by norm_num)
  refine ⟨⟨by norm_num, h.1⟩, ?_⟩
  rw [h.2]
  norm_num

lemma all_groups_append (threshold : ℚ) (meta : SessionMetadata)
    (event_size_bytes : ℕ) (ev : EventGroup) (st : StoreState) :
    all_groups (append_event threshold meta event_size_bytes ev st) =
      all_groups st ++ [ev] := by
  by_cases h : ((st.current_file_size : ℚ) + event_size_bytes > threshold) <;>
    simp [append_event, rotate, all_groups, h]

lemma run_acquisition_succ (threshold : ℚ) (meta : SessionMetadata)
    (channels : List ℤ) (samples : ℕ) (samples_delay : ℤ)
    (bufs : ℕ → ℤ → ℤ → ℚ) (trig : ℕ → ℤ) (n : ℕ) :
    run_acquisition threshold meta channels samples samples_delay bufs trig (n + 1) =
      append_event threshold meta (samples * channels.length * 4)
        (capture_event channels (bufs n) samples samples_delay (trig n) (n + 1))
        (run_acquisition threshold meta channels samples samples_delay bufs trig n) := by
  unfold run_acquisition
  rw [List.range_succ, List.foldl_append]
  rfl

lemma all_groups_run (threshold : ℚ) (meta : SessionMetadata)
    (channels : List ℤ) (samples : ℕ) (samples_delay : ℤ)
    (bufs : ℕ → ℤ → ℤ → ℚ) (trig : ℕ → ℤ) (n : ℕ) :
    all_groups (run_acquisition threshold meta channels samples samples_delay bufs trig n) =
      (List.range n).map
        (fun e => capture_event channels (bufs e) samples samples_delay (trig e) (e + 1)) := by
  induction n with
  | zero => rfl
  | succ m ih =>
      rw [run_acquisition_succ, all_groups_append, ih, List.range_succ,
        List.map_append]
      rfl

/-- C6: across the whole session, regardless of rotation, the event
groups are written with 1-based global sequence numbers `1 .. n`
(strictly increasing, no reuse, no gaps) and names
`event_{seq:06d}`. -/
theorem event_sequence_numbers (threshold : ℚ) (meta : SessionMetadata)
    (channels : List ℤ) (samples : ℕ) (samples_delay : ℤ)
    (bufs : ℕ → ℤ → ℤ → ℚ) (trig : ℕ → ℤ) (n : ℕ) :
    ((all_groups (run_acquisition threshold meta channels samples samples_delay
        bufs trig n)).map EventGroup.seq = (List.range n).map (fun e => e + 1)) ∧
    ((all_groups (run_acquisition threshold meta channels samples samples_delay
        bufs trig n)).map EventGroup.name =
      (List.range n).map (fun e => group_name (e + 1))) ∧
    ((all_groups (run_acquisition threshold meta channels samples samples_delay
        bufs trig n)).map EventGroup.seq).Pairwise (fun a b => a < b) := by
  have h := all_groups_run threshold meta channels samples samples_delay bufs trig n
  refine ⟨?_, ?_, ?_⟩ <;> rw [h, List.map_map]
  · rfl
  · rfl
  · have : (EventGroup.seq ∘ fun e =>
        capture_event channels (bufs e) samples samples_delay (trig e) (e + 1)) =
        fun e => e + 1 := rfl
    rw [this]
    exact (List.pairwise_lt_range n).map _ (fun a b hab => Nat.add_lt_add_right hab 1)

/-- Witness for C6: five events with `threshold = 100` (rotation after
event 2) still yield names `event_000001` .. `event_000005`. -/
theorem event_sequence_numbers_witness :
    (all_groups (run_acquisition 100 meta_w [1, 2, 3] 5 0
        (fun _ _ _ => 0) (fun _ => 0) 5)).map EventGroup.name =
      (List.range 5).map (fun e => group_name (e + 1)) :=
  (event_sequence_numbers 100 meta_w [1, 2, 3] 5 0
    (fun _ _ _ => 0) (fun _ => 0) 5).2.1

lemma lookup_map_channel (channels : List ℤ) (f : ℤ → List ℚ) (ch : ℤ)
    (hnd : (channels.map channel_name).Nodup) (hch : ch ∈ channels) :
    (channels.map (fun c => (channel_name c, f c))).lookup (channel_name ch) =
      some (f ch) := by
  induction channels with
  | nil => cases hch
  | cons a l ih =>
      rw [List.map_cons, List.lookup_cons]
      by_cases hname : channel_name ch = channel_name a
      · have hcha : ch = a := by
          rcases List.mem_cons.mp hch with h | h
          · exact h
          · exfalso
            have hmem : channel_name a ∈ l.map channel_name := by
              rw [← hname]
              exact List.mem_map_of_mem channel_name h
            exact (List.nodup_cons.mp (by simpa using hnd)).1 hmem
        subst hcha
        simp [hname]
      · have hbeq : (channel_name ch == channel_name a) = false := by
          simpa using hname
        rw [hbeq]
        have hch' : ch ∈ l := by
          rcases List.mem_cons.mp hch with h | h
          · exact absurd (by rw [h]) hname
          · exact h
        exact ih (List.nodup_cons.mp (by simpa using hnd)).2 hch'

/-- C7: the group written for one trigger contains exactly one
dataset per configured channel — the dataset names are exactly
`channel_{id}` for the configured channel set, each holding exactly
`samples` values — plus the `timestamp` attribute equal to the
recorded trigger time, and looking a channel's dataset up by name
recovers its sample window. -/
theorem event_group_roundtrip (channels : List ℤ) (buf : ℤ → ℤ → ℚ)
    (samples : ℕ) (samples_delay t : ℤ) (seq : ℕ)
    (hnd : (channels.map channel_name).Nodup) :
    ((capture_event channels buf samples samples_delay t seq).datasets.map
        Prod.fst = channels.map channel_name) ∧
    (∀ ds ∈ (capture_event channels buf samples samples_delay t seq).datasets,
        ds.2.length = samples) ∧
    ((capture_event channels buf samples samples_delay t seq).timestamp = t) ∧
    (∀ ch ∈ channels,
      (capture_event channels buf samples samples_delay t seq).datasets.lookup
          (channel_name ch) =
        some (capture_window (buf ch) samples samples_delay)) := by
  refine ⟨?_, ?_, rfl, ?_⟩
  · rw [capture_event, List.map_map]
    rfl
  · intro ds hds
    rw [capture_event] at hds
    obtain ⟨ch, _, rfl⟩ := List.mem_map.mp hds
    simp [capture_window]
  · intro ch hch
    exact lookup_map_channel channels
      (fun c => capture_window (buf c) samples samples_delay) ch hnd hch

/-- Witness for C7: the spec's round-trip example with channel set
`{1, 2}` and `samples = 32`: looking up `channel_1` recovers its
32-value window and the timestamp is the recorded trigger time. -/
theorem event_group_roundtrip_witness :
    (([1, 2] : List ℤ).map channel_name).Nodup ∧
    (capture_event [1, 2] (fun _ z => (z : ℚ)) 32 8 77 1).datasets.lookup
        (channel_name 1) = some (capture_window (fun z => (z : ℚ)) 32 8) ∧
    (capture_event [1, 2] (fun _ z => (z : ℚ)) 32 8 77 1).timestamp = 77 := by
  have h := event_group_roundtrip [1, 2] (fun _ z => (z : ℚ)) 32 8 77 1 (by decide)
  exact ⟨by decide, h.2.2.2 1 (by decide), h.2.2.1⟩

/-- C8 counterexample: the script performs no
`InvalidConfigurationError` validation.  With the operator entering
`-5` for the samples-per-event prompt, the configuration step
returns a configuration whose sample count is the non-positive
value `-5` (the collection is a total function — there is no
rejection path), and acquisition proceeds with it. -/
theorem no_sample_validation_counterexample :
    (preflight_config "-5".data "8".data "1,2".data).samples = -5 ∧
    (preflight_config "-5".data "8".data "1,2".data).samples ≤ 0 := by
  refine ⟨?_, ?_⟩ <;> decide

/-- C8 amended: the script never rejects a configuration: an empty
(or invalid) channel-selection input falls back to the full channel
set, so the configured channel list is never empty, while a
non-positive sample count entered by the operator is accepted
unchanged and flows into acquisition. -/
theorem no_config_validation (samples_input delay_input chan_input : List Char) :
    (preflight_config samples_input delay_input chan_input).channels_to_acquire ≠ [] ∧
    (preflight_config "-5".data "8".data "1,2".data).samples = -5 := by
  have hfall : ∀ (l : List ℤ), (if l = [] then ([1, 2, 3, 4] : List ℤ) else l) ≠ [] := by
    intro l
    by_cases hl : l = []
    · rw [if_pos hl]
      simp
    · rw [if_neg hl]
      exact hl
  constructor
  · show select_channels chan_input [1, 2, 3, 4] ≠ []
    unfold select_channels
    by_cases h1 : strip_chars chan_input = []
    · rw [if_pos h1]
      simp
    · rw [if_neg h1]
      exact hfall _
  · decide

/-- Witness for C8's amended theorem at concrete inputs. -/
theorem no_config_validation_witness :
    (preflight_config "".data "".data "".data).channels_to_acquire ≠ [] ∧
    (preflight_config "-5".data "8".data "1,2".data).samples = -5 :=
  no_config_validation "".data "".data "".data

lemma final_report_cons (ts : List ℤ) (h : ts ≠ []) :
    final_report ts =
      some (((ts.getLast h - ts.head h : ℤ) : ℚ) / 1000000000) := by
  cases ts with
  | nil => exact absurd rfl h
  | cons t r => rfl

lemma getLast_map_range (f : ℕ → ℤ) (m : ℕ) (h : (List.range (m + 1)).map f ≠ []) :
    ((List.range (m + 1)).map f).getLast h = f m := by
  have h1 : ((List.range (m + 1)).map f).getLast? = some (f m) := by
    rw [List.range_succ, List.map_append]
    exact List.getLast?_concat _
  rw [List.getLast?_eq_getLast_of_ne_nil h] at h1
  exact Option.some.inj h1

lemma head_map_range (f : ℕ → ℤ) (m : ℕ) (h : (List.range (m + 1)).map f ≠ []) :
    ((List.range (m + 1)).map f).head h = f 0 := by
  have h1 : ((List.range (m + 1)).map f).head? = some (f 0) := by
    rw [List.range_succ_eq_map]
    rfl
  rw [List.head?_eq_head h] at h1
  exact Option.some.inj h1

/-- C9: with at least one captured event the final report's elapsed
time is `(last trigger time - first trigger time) / 1e9` seconds;
with zero events the report is skipped (`none`, the "no triggers
detected" signal). -/
theorem final_report_elapsed (trig : ℕ → ℤ) (n : ℕ) :
    (1 ≤ n → final_report (trigger_times_run trig n) =
      some (((trig (n - 1) - trig 0 : ℤ) : ℚ) / 1000000000)) ∧
    final_report (trigger_times_run trig 0) = none := by
  constructor
  · intro hn
    obtain ⟨m, rfl⟩ : ∃ m, n = m + 1 :=
      ⟨n - 1, (Nat.succ_pred_eq_of_pos hn).symm⟩
    have hne : trigger_times_run trig (m + 1) ≠ [] := by
      simp [trigger_times_run]
    rw [final_report_cons _ hne]
    show some ((((((List.range (m + 1)).map trig).getLast hne -
        ((List.range (m + 1)).map trig).head hne : ℤ)) : ℚ) / 1000000000) = _
    rw [getLast_map_range, head_map_range]
    norm_num
  · rfl

/-- Witness for C9 at `n = 3` with trigger times `0, 7, 14` ns:
elapsed seconds `14 / 1e9`. -/
theorem final_report_elapsed_witness :
    (1 ≤ 3) ∧
    final_report (trigger_times_run trig_w 3) =
      some (((trig_w (3 - 1) - trig_w 0 : ℤ) : ℚ) / 1000000000) :=
  ⟨by norm_num, (final_report_elapsed trig_w 3).1 (by norm_num)⟩

end ADQ
